import Mathlib

/-!
Verification of the pattern-generation engine of the Rust-Advanced-String-Generator
repository against its natural-language specification.

The Rust sources (`src/regex_generator.rs` and the second copy of the engine in
`src/demo.rs`) are shallowly embedded below:

* Rust `String` values are modelled as `List Char` (`Str`);
* the pseudo-random source (`rand::thread_rng`) is modelled as an injected stream of
  sampler outcomes (`RNG := List Nat`); `gen_range(lo..hi)` consumes one outcome and
  maps it into the requested interval, and panics (Rust: "cannot sample empty range")
  when the interval is empty;
* Rust panics (`unwrap` on a failed parse, empty-range sampling, division/remainder
  by zero, arithmetic underflow) are modelled as `GenErr` results; the mutable
  `&mut self` state is threaded explicitly and is also returned on a panic, matching
  the fact that mutations performed before an unwinding panic persist in the object;
* `HashMap<usize, String>` is modelled as an association list with insert-or-replace
  semantics (`mapInsert`/`mapLookup`); only lookup behaviour is observable;
* `HashSet<char>` iteration order is unspecified in Rust; it is modelled as insertion
  order (for extracted classes) resp. ascending order (for the printable full set).
  No verified property depends on the chosen order, only on membership.
-/

namespace RSG

/-- Rust `String`, modelled as its sequence of characters. -/
abbrev Str := List Char

/-- The ways a `generate` call can panic (the Rust code has no `Result` channel;
every failure is a panic). -/
inductive GenErr where
  /-- `parse().unwrap()` on a non-numeric quantifier bound (regex_generator.rs lines 203 and 205). -/
  | parsePanic
  /-- `rng.gen_range` invoked on an empty range (`min > max`, or sampling an empty set). -/
  | emptyRangePanic
  /-- arithmetic panic: `% 0`, or `0usize - 1` underflow in `10.pow(num_len - 1)`. -/
  | arithPanic
deriving Repr, DecidableEq

/-- Decimal digit characters of a natural number, most significant first
(Rust `format!("{}", n)` for unsigned values). -/
def natToDigits (n : Nat) : Str :=
  if n < 10 then [Char.ofNat (48 + n)]
  else natToDigits (n / 10) ++ [Char.ofNat (48 + n % 10)]
termination_by n
decreasing_by omega

/-- Rust `format!("{}", i)` for a signed integer. -/
def intToStr (i : Int) : Str :=
  if i < 0 then '-' :: natToDigits i.natAbs else natToDigits i.toNat

/-- Rust `format!("{:0width$}", n)` for an unsigned value: left-pad with zeros. -/
def padNat (n width : Nat) : Str :=
  List.replicate (width - (natToDigits n).length) '0' ++ natToDigits n

/-- Rust `format!("{:0width$}", i)` for a signed value: the sign is emitted first and
counts towards the width; zeros are inserted between sign and digits. -/
def padInt (i : Int) (width : Nat) : Str :=
  if i < 0 then
    '-' :: (List.replicate (width - 1 - (natToDigits i.natAbs).length) '0' ++ natToDigits i.natAbs)
  else padNat i.toNat width

/-- Numeric value of an ASCII digit character. -/
def digitVal (c : Char) : Nat := c.toNat - 48

/-- Value of a string of decimal digits, as accumulated left to right. -/
def digitsToNat (ds : Str) : Nat := ds.foldl (fun a c => a * 10 + digitVal c) 0

/-- Rust `str::parse::<usize>()`: an optional leading `+`, then a non-empty run of
decimal digits whose value fits in 64 bits. -/
def parseUsize (s : Str) : Option Nat :=
  let body := match s with | '+' :: rest => rest | _ => s
  if body ≠ [] ∧ body.all Char.isDigit ∧ digitsToNat body ≤ 18446744073709551615 then
    some (digitsToNat body)
  else none

/-- Rust `str::parse::<i32>()` restricted to the inputs it receives in
`increment_string`: the extracted digit run consists only of ASCII digits, so the
parse succeeds exactly when the run is non-empty and its value fits in an `i32`. -/
def parseI32digits (ds : Str) : Option Int :=
  if ds ≠ [] ∧ ds.all Char.isDigit ∧ digitsToNat ds ≤ 2147483647 then
    some (digitsToNat ds : Int)
  else none

/-- The injected uniform-sampler capability: a stream of raw outcomes. -/
abbrev RNG := List Nat

/-- Draw the next raw sampler outcome. -/
def nextR (rng : RNG) : Nat × RNG := (rng.headD 0, rng.drop 1)

/-- Rust `rng.gen_range(lo..hi)` (exclusive upper bound): uniform draw from
`[lo, hi)`; panics when the range is empty. -/
def genRange (lo hi : Nat) (rng : RNG) : Except GenErr (Nat × RNG) :=
  if lo < hi then
    let (r, rng') := nextR rng
    .ok (lo + r % (hi - lo), rng')
  else .error .emptyRangePanic

/-- Rust `rng.gen_range(lo..=hi)` (inclusive upper bound): uniform draw from
`[lo, hi]`; panics when `lo > hi`. -/
def genRangeIncl (lo hi : Nat) (rng : RNG) : Except GenErr (Nat × RNG) :=
  if lo ≤ hi then
    let (r, rng') := nextR rng
    .ok (lo + r % (hi - lo + 1), rng')
  else .error .emptyRangePanic

/-- `HashMap::insert`: replace the binding for `k` if present, else add it. -/
def mapInsert : List (Nat × Str) → Nat → Str → List (Nat × Str)
  | [], k, v => [(k, v)]
  | (k', v') :: rest, k, v =>
      if k' = k then (k, v) :: rest else (k', v') :: mapInsert rest k v

/-- `HashMap::get`. -/
def mapLookup : List (Nat × Str) → Nat → Option Str
  | [], _ => none
  | (k', v') :: rest, k => if k' = k then some v' else mapLookup rest k

/-- `HashSet::insert`: membership-preserving; iteration order modelled as insertion
order. -/
def hsInsert (s : List Char) (c : Char) : List Char :=
  if c ∈ s then s else s ++ [c]

/-- Insert every element of `l` in order (the `for c in start..=end` loop body). -/
def hsInsertAll (s : List Char) (l : List Char) : List Char :=
  l.foldl hsInsert s

/-- The Rust range `a..=b` over `char`: all scalar values from `a` to `b` inclusive
(surrogate code points are skipped by the Rust `char` iterator). -/
def charRange (a b : Char) : List Char :=
  (List.range' a.toNat (b.toNat + 1 - a.toNat)).filterMap
    (fun n => if n < 55296 ∨ (57343 < n ∧ n < 1114112) then some (Char.ofNat n) else none)

/-- The "full set" `(32..127).map(|c| c as u8 as char)` of printable ASCII,
in ascending order. -/
def fullSet : List Char :=
  (List.range' 32 95).map Char.ofNat

/-- The result of `check_repeat_spec`: `(min, max, leading_zeros_spec)`. -/
abbrev RepeatSpec := Nat × Option Nat × Option (Nat × Nat)

/-- The spec-collection loop shared by `check_repeat_spec` in both engine copies:
consume characters up to and including the closing brace (or to the end of the
pattern) and return them together with the remaining input. -/
def collectSpec : Str → Str × Str
  | [] => ([], [])
  | c :: rest =>
      if c = '}' then ([], rest)
      else
        let (s, r) := collectSpec rest
        (c :: s, r)

/-- The loop that scans the optional leading-zero spec after a counter directive
(regex_generator.rs lines 53 to 69): consume up to and including the closing brace,
keeping only the characters that are numeric and not a colon. Rust
`char::is_numeric` is Unicode-numeric; it is modelled as `Char.isDigit`, which
coincides on the ASCII range the pattern language is fixed to (spec section 1). -/
def collectISpec : Str → Str × Str
  | [] => ([], [])
  | c :: rest =>
      if c = '}' then ([], rest)
      else
        let (s, r) := collectISpec rest
        ((if c ≠ ':' ∧ c.isDigit then c :: s else s), r)

/-- The parsing part of `check_repeat_spec` (regex_generator.rs lines 194 to 207),
applied to the collected spec text. `spec.find(colon)` selects the first colon; the
colon form uses `parse().ok()?` (failure yields `none`), while the comma form uses
`parse().unwrap()` (failure panics). -/
def crsParse (spec : Str) : Except GenErr (Option RepeatSpec) :=
  if ':' ∈ spec then
    match parseUsize (spec.takeWhile (· ≠ ':')), parseUsize ((spec.dropWhile (· ≠ ':')).drop 1) with
    | some numLen, some totalLen => .ok (some (1, none, some (numLen, totalLen)))
    | _, _ => .ok none
  else
    let parts := spec.splitOn ','
    if parts.length = 1 then
      match parseUsize (parts.getD 0 []) with
      | some n => .ok (some (n, none, none))
      | none => .error .parsePanic
    else if parts.length = 2 then
      match parseUsize (parts.getD 0 []), parseUsize (parts.getD 1 []) with
      | some a, some b => .ok (some (a, some b, none))
      | _, _ => .error .parsePanic
    else .ok none

/-- `check_repeat_spec` of regex_generator.rs (lines 177 to 211). Returns the parsed
spec (or `none`) together with the remaining input. Note that when the input starts
with a brace, the spec characters are consumed even when parsing fails. -/
def check_repeat_spec (cs : Str) : Except GenErr (Option RepeatSpec) × Str :=
  match cs with
  | '{' :: rest => (crsParse (collectSpec rest).1, (collectSpec rest).2)
  | _ => ((.ok none), cs)

/-- The body loop of `extract_char_class` (regex_generator.rs lines 278 to 293):
consume until an unescaped closing bracket or the end of the pattern, collecting
characters and `a-b` ranges; `rangeStart` is the last single character seen. -/
def eccLoop : Str → List Char → Option Char → List Char × Str
  | [], cls, _ => (cls, [])
  | c :: rest, cls, rangeStart =>
      if c = ']' then (cls, rest)
      else
        match rangeStart with
        | some s =>
            if c = '-' then
              match rest with
              | [] => (cls, [])
              | e :: rest2 => eccLoop rest2 (hsInsertAll cls (charRange s e)) none
            else eccLoop rest (hsInsert cls c) (some c)
        | none => eccLoop rest (hsInsert cls c) (some c)

/-- `extract_char_class` of regex_generator.rs (lines 265 to 296): optional leading
negation marker, then the class body; returns the class, the negation flag and the
remaining input. An unterminated class consumes to the end of the pattern. -/
def extract_char_class (cs : Str) : List Char × Bool × Str :=
  match cs with
  | '^' :: rest => ((eccLoop rest [] none).1, true, (eccLoop rest [] none).2)
  | _ => ((eccLoop cs [] none).1, false, (eccLoop cs [] none).2)

/-- Draw one character uniformly from a fixed non-empty sample set
(`sample_set.chars().nth(rng.gen_range(0..sample_set.len()))`). All sets passed here
are non-empty ASCII constants, so `gen_range(0..len)` cannot panic and yields
`raw % len`; byte length and character count coincide. -/
def sampleOne (s : Str) (rng : RNG) : Str × RNG :=
  let (r, rng') := nextR rng
  ([s.getD (r % s.length) ' '], rng')

/-- `handle_escape` of regex_generator.rs (lines 213 to 242): single-character escape
directives and their fixed sample alphabets. -/
def handle_escape (c : Char) (rng : RNG) : Str × RNG :=
  if c = 'd' then
    let (r, rng') := nextR rng
    (natToDigits (r % 10), rng')
  else if c = 'w' then
    sampleOne "ABCDEFGHIJKLMNOPQRSTUVWXYZabcdefghijklmnopqrstuvwxyz0123456789_".data rng
  else if c = 's' then
    sampleOne " \t\n\r".data rng
  else if c = 'D' then
    sampleOne "ABCDEFGHIJKLMNOPQRSTUVWXYZabcdefghijklmnopqrstuvwxyz!@#$%^&*()".data rng
  else if c = 'W' then
    sampleOne "!@#$%^&*()+=-[]\x7b\x7d|;:,.<>?/`~".data rng
  else if c = 'S' then
    sampleOne "ABCDEFGHIJKLMNOPQRSTUVWXYZabcdefghijklmnopqrstuvwxyz0123456789!@#$%^&*()".data rng
  else if c = 't' then ("\t".data, rng)
  else if c = 'n' then ("\n".data, rng)
  else ([c], rng)

/-- The repeat-count draw shared by `handle_repeat` and `handle_bracket`:
`rng.gen_range(min..=max)` when a maximum is present (panicking when `min > max`),
else exactly `min`. -/
def drawCount (mn : Nat) (mx : Option Nat) (rng : RNG) : Except GenErr (Nat × RNG) :=
  match mx with
  | some m => genRangeIncl mn m rng
  | none => .ok (mn, rng)

/-- The numeric-width emission shared by `handle_repeat` and `handle_bracket`:
`rng.gen_range(10.pow(num_len - 1)..10.pow(num_len))`, zero-padded to `total_len`.
For `num_len = 0` the Rust subtraction `num_len - 1` underflows and panics. -/
def emitNumericWidth (numLen totalLen : Nat) (rng : RNG) : Except GenErr (Str × RNG) :=
  if numLen = 0 then .error .arithPanic
  else
    match genRange (10 ^ (numLen - 1)) (10 ^ numLen) rng with
    | .error e => .error e
    | .ok (number, rng2) => .ok (padNat number totalLen, rng2)

/-- `handle_repeat` of regex_generator.rs (lines 244 to 263). The repeat count is
drawn first; with a numeric-width spec a padded numeral is emitted instead of
repetitions; otherwise `handle_escape` is invoked once and its single sample is
repeated `repeat_count` times (`std::iter::repeat(..).take(..)`). -/
def handle_repeat (c : Char) (spec : RepeatSpec) (rng : RNG) : Except GenErr (Str × RNG) :=
  match drawCount spec.1 spec.2.1 rng with
  | .error e => .error e
  | .ok (cnt, rng1) =>
      match spec.2.2 with
      | some (numLen, totalLen) => emitNumericWidth numLen totalLen rng1
      | none =>
          let (s, rng2) := handle_escape c rng1
          .ok ((List.replicate cnt s).flatten, rng2)

/-- The sampling loop of `handle_bracket`: draw `cnt` characters independently from
`sample_set`, each by `sample_set[rng.gen_range(0..sample_set.len())]`; panics on an
empty set when `cnt > 0`. -/
def sampleChars (s : List Char) : Nat → RNG → Except GenErr (Str × RNG)
  | 0, rng => .ok ([], rng)
  | k + 1, rng =>
      match genRange 0 s.length rng with
      | .error e => .error e
      | .ok (i, rng1) =>
          match sampleChars s k rng1 with
          | .error e => .error e
          | .ok (rest, rng2) => .ok (s.getD i ' ' :: rest, rng2)

/-- `handle_bracket` of regex_generator.rs (lines 298 to 323): repeat count first,
then either the numeric-width emission (class contents ignored) or independent draws
from the effective sample set (the class, or its complement in `fullSet` when
negated). -/
def handle_bracket (char_class : List Char) (spec : RepeatSpec) (negate : Bool)
    (rng : RNG) : Except GenErr (Str × RNG) :=
  match drawCount spec.1 spec.2.1 rng with
  | .error e => .error e
  | .ok (cnt, rng1) =>
      match spec.2.2 with
      | some (numLen, totalLen) => emitNumericWidth numLen totalLen rng1
      | none =>
          let sample_set := if negate then fullSet.filter (fun c => c ∉ char_class) else char_class
          sampleChars sample_set cnt rng1

/-- The prefix/digit-run split of `increment_string` (both copies, identical code):
every character before the first digit goes to the prefix; the digit run is the
maximal run of digits starting at the first digit; everything after it is dropped. -/
def splitValue : Str → Str × Str
  | [] => ([], [])
  | c :: rest =>
      if c.isDigit then ([], c :: rest.takeWhile Char.isDigit)
      else (c :: (splitValue rest).1, (splitValue rest).2)

/-- `increment_string` of regex_generator.rs (lines 325 to 353): adjust the digit run
by `direction`; when an explicit total width is given the result is zero-padded to
it, otherwise it is rendered with the default format (no padding). A digit run that
fails to parse (empty, or too large for `i32`) is left unchanged. The addition is
modelled exactly on the integers, which diverges from the source only where
`num + direction` overflows `i32` — digit run value 2147483647 ascending, where
Rust panics in debug builds and wraps in release builds. Every theorem below whose
conclusion depends on the rendered value therefore carries an explicit bound (such
as `n + 1 ≤ 2147483647`) keeping the addition inside `i32`, where the model and
the source agree. -/
def increment_string (direction : Int) (value : Str) (total_len : Option Nat) : Str :=
  let pre := (splitValue value).1
  let digits := (splitValue value).2
  let digits' :=
    match parseI32digits digits with
    | some num =>
        match total_len with
        | some w => padInt (num + direction) w
        | none => intToStr (num + direction)
    | none => digits
  pre ++ digits'

/-- `increment_string` of demo.rs (lines 284 to 309): same split, but the adjusted
number is always zero-padded to the original digit run length. The `i32` addition
is modelled on the integers exactly as in `increment_string`, so the two copies are
modelled identically at the overflow boundary, just as the two Rust copies behave
identically there. -/
def demo_increment_string (direction : Int) (value : Str) : Str :=
  let pre := (splitValue value).1
  let digits := (splitValue value).2
  let digits' :=
    match parseI32digits digits with
    | some num => padInt (num + direction) digits.length
    | none => digits
  pre ++ digits'

/-- The mutable fields of `RegexGenerator` (the pattern itself is immutable and is
passed separately): capture table, counter value, counter direction, value pool and
pool cursor. -/
structure GenState where
  groups : List (Nat × Str)
  increment_value : Option Str
  direction : Int
  array_values : Option (List Str)
  array_index : Nat
deriving Repr, DecidableEq

/-- `RegexGenerator::new`: empty capture table, ascending direction, cursor at 0. -/
def GenState.new (inc : Option Str) (arr : Option (List Str)) : GenState :=
  { groups := [], increment_value := inc, direction := 1, array_values := arr,
    array_index := 0 }

/-- The optional sign after a counter directive (`+` ascending, `-` descending,
absent defaults to ascending). -/
def scanSign (cs : Str) : Int × Str :=
  match cs with
  | '+' :: r => (1, r)
  | '-' :: r => (-1, r)
  | _ => (1, cs)

/-- The optional sign after a pool directive (`+` ascending, `-` descending,
absent means random). -/
def scanArraySign (cs : Str) : Int × Str :=
  match cs with
  | '+' :: r => (1, r)
  | '-' :: r => (-1, r)
  | _ => (0, cs)

/-- The optional leading-zero spec after a counter directive: present only when a
brace follows immediately; the collected digits are parsed with `parse().ok()`. -/
def scanISpec (cs : Str) : Option Nat × Str :=
  match cs with
  | '{' :: r => (parseUsize (collectISpec r).1, (collectISpec r).2)
  | _ => (none, cs)

/-- `Vec::pop` on the group stack: the last accumulator and the remaining stack. -/
def popBack (l : List Str) : Option (Str × List Str) :=
  match l.getLast? with
  | none => none
  | some x => some (x, l.dropLast)

/-- `last_mut` followed by `push(c)`: append `c` to the innermost accumulator. -/
def pushLast : List Str → Char → List Str
  | [], _ => []
  | [s], c => [s ++ [c]]
  | s :: s2 :: rest, c => s :: pushLast (s2 :: rest) c

theorem collectSpec_len (l : Str) : (collectSpec l).2.length ≤ l.length := by
  induction l with
  | nil => simp [collectSpec]
  | cons c rest ih =>
      simp only [collectSpec]
      split
      · simp
      · simpa using Nat.le_succ_of_le ih

theorem collectISpec_len (l : Str) : (collectISpec l).2.length ≤ l.length := by
  induction l with
  | nil => simp [collectISpec]
  | cons c rest ih =>
      simp only [collectISpec]
      split
      · simp
      · simpa using Nat.le_succ_of_le ih

theorem check_repeat_spec_len (l : Str) : (check_repeat_spec l).2.length ≤ l.length := by
  unfold check_repeat_spec
  split
  · simpa using Nat.le_succ_of_le (collectSpec_len _)
  · exact Nat.le_refl _

theorem eccLoop_len (l : Str) (cls : List Char) (rs : Option Char) :
    (eccLoop l cls rs).2.length ≤ l.length := by
  induction l, cls, rs using eccLoop.induct with
  | case1 cls x => simp [eccLoop.eq_def]
  | case2 rest cls rangeStart => rw [eccLoop.eq_def]; simp
  | case3 cls s h => rw [eccLoop.eq_def]; simp
  | case4 cls s e rest2 h ih =>
      rw [eccLoop.eq_def]
      simpa using Nat.le_succ_of_le (Nat.le_succ_of_le ih)
  | case5 c rest cls h s h2 ih =>
      rw [eccLoop.eq_def]
      simp only [if_neg h, if_neg h2, List.length_cons]
      exact Nat.le_succ_of_le ih
  | case6 c rest cls h ih =>
      rw [eccLoop.eq_def]
      simp only [if_neg h, List.length_cons]
      exact Nat.le_succ_of_le ih

theorem extract_char_class_len (l : Str) : (extract_char_class l).2.2.length ≤ l.length := by
  unfold extract_char_class
  split
  · simpa using Nat.le_succ_of_le (eccLoop_len _ _ _)
  · simpa using eccLoop_len _ _ _

theorem scanSign_len (l : Str) : (scanSign l).2.length ≤ l.length := by
  unfold scanSign
  split <;> simp

theorem scanArraySign_len (l : Str) : (scanArraySign l).2.length ≤ l.length := by
  unfold scanArraySign
  split <;> simp

theorem scanISpec_len (l : Str) : (scanISpec l).2.length ≤ l.length := by
  unfold scanISpec
  split
  · simpa using Nat.le_succ_of_le (collectISpec_len _)
  · exact Nat.le_refl _

/-- The local state of the scan loop of `generate`, besides the remaining pattern
text: the mutable generator state, the sampler stream, the accumulated `result`,
the group stack, the innermost open group ordinal (`current_group`) and the next
group ordinal (`group_index`). -/
structure ScanCtx where
  st : GenState
  rng : RNG
  result : Str
  gstack : List Str
  cgroup : Option Nat
  gindex : Nat
deriving Repr, DecidableEq

/-- One iteration of the scan loop of `generate` (regex_generator.rs lines 33 to
171): consume one construct from the front of the pattern and return the remaining
pattern text and the updated loop state, or the panic that the iteration hit.
On empty input (the `while let` has ended) nothing happens. -/
def scanStep (cs : Str) (ctx : ScanCtx) : Except GenErr (Str × ScanCtx) :=
  match cs with
  | [] => .ok ([], ctx)
  | ch :: rest =>
    if ch = '\\' then
      match rest with
      | [] => .ok ([], ctx)
      | next_ch :: rest2 =>
        if next_ch = 'i' then
          let st1 := { ctx.st with direction := (scanSign rest2).1 }
          let total_len := (scanISpec (scanSign rest2).2).1
          let rest4 := (scanISpec (scanSign rest2).2).2
          match st1.increment_value with
          | some v =>
              let nv := increment_string st1.direction v total_len
              .ok (rest4, { ctx with st := { st1 with increment_value := some nv },
                                     result := ctx.result ++ nv })
          | none => .ok (rest4, { ctx with st := st1, result := ctx.result ++ "0".data })
        else if next_ch = 'a' then
          let asign := (scanArraySign rest2).1
          let rest3 := (scanArraySign rest2).2
          match ctx.st.array_values with
          | some arr =>
              if asign = 1 then
                if arr.length = 0 then .error .arithPanic
                else .ok (rest3,
                  { ctx with
                      st := { ctx.st with array_index := ctx.st.array_index + 1 },
                      result := ctx.result ++ arr.getD (ctx.st.array_index % arr.length) [] })
              else if asign = -1 then
                if arr.length = 0 then .error .arithPanic
                else .ok (rest3,
                  { ctx with
                      st := { ctx.st with array_index := ctx.st.array_index + 1 },
                      result := ctx.result ++ arr.getD (arr.length - 1 - ctx.st.array_index % arr.length) [] })
              else
                match genRange 0 arr.length ctx.rng with
                | .error e => .error e
                | .ok (i, rng') =>
                    .ok (rest3, { ctx with rng := rng', result := ctx.result ++ arr.getD i [] })
          | none => .ok (rest3, { ctx with result := ctx.result ++ [] })
        else if '1' ≤ next_ch ∧ next_ch ≤ '9' then
          match mapLookup ctx.st.groups (next_ch.toNat - 48) with
          | some content => .ok (rest2, { ctx with result := ctx.result ++ content })
          | none => .ok (rest2, ctx)
        else
          match (check_repeat_spec rest2).1 with
          | .error e => .error e
          | .ok (some spec) =>
              match handle_repeat next_ch spec ctx.rng with
              | .error e => .error e
              | .ok (s, rng') =>
                  .ok ((check_repeat_spec rest2).2,
                    { ctx with rng := rng', result := ctx.result ++ s })
          | .ok none =>
              .ok ((check_repeat_spec rest2).2,
                { ctx with rng := (handle_escape next_ch ctx.rng).2,
                           result := ctx.result ++ (handle_escape next_ch ctx.rng).1 })
    else if ch = '[' then
      match (check_repeat_spec (extract_char_class rest).2.2).1 with
      | .error e => .error e
      | .ok (some spec) =>
          match handle_bracket (extract_char_class rest).1 spec (extract_char_class rest).2.1 ctx.rng with
          | .error e => .error e
          | .ok (s, rng') =>
              .ok ((check_repeat_spec (extract_char_class rest).2.2).2,
                { ctx with rng := rng', result := ctx.result ++ s })
      | .ok none =>
          match handle_bracket (extract_char_class rest).1 (1, none, none) (extract_char_class rest).2.1 ctx.rng with
          | .error e => .error e
          | .ok (s, rng') =>
              .ok ((check_repeat_spec (extract_char_class rest).2.2).2,
                { ctx with rng := rng', result := ctx.result ++ s })
    else if ch = '(' then
      .ok ((if rest.head? = some '?' then rest.drop 1 else rest),
        { ctx with gstack := ctx.gstack ++ [[]], cgroup := some ctx.gindex,
                   gindex := ctx.gindex + 1 })
    else if ch = ')' then
      match ctx.cgroup with
      | some g =>
          match popBack ctx.gstack with
          | none => .ok (rest, ctx)
          | some (content, stack') =>
              let content' := if '|' ∈ content then content.takeWhile (· ≠ '|') else content
              .ok (rest,
                { ctx with
                    st := { ctx.st with groups := mapInsert ctx.st.groups g content' },
                    result := ctx.result ++ content',
                    gstack := stack',
                    cgroup := none })
      | none => .ok (rest, ctx)
    else if ch = '|' then
      match ctx.gstack with
      | [] => .ok (rest, { ctx with result := ctx.result ++ ['|'] })
      | _ => .ok (rest, { ctx with gstack := pushLast ctx.gstack '|' })
    else
      match ctx.cgroup with
      | some _ =>
          match ctx.gstack with
          | [] => .ok (rest, ctx)
          | _ => .ok (rest, { ctx with gstack := pushLast ctx.gstack ch })
      | none => .ok (rest, { ctx with result := ctx.result ++ [ch] })

/-- The scan loop of `generate`: iterate `scanStep` until the pattern is exhausted
or an iteration panics (in which case the state as of the start of that iteration
is what the unwinding call leaves behind). The `fuel` argument is a bound on the
number of iterations used to make the recursion structural; each iteration consumes
at least one character (`scanStep_cases` below), so `generate` supplies
`pattern.length` and the out-of-fuel branch is never reached
(`scanLoop_fuel_irrelevant` below). -/
def scanLoop : Nat → Str → ScanCtx → (Except GenErr Str) × GenState × RNG
  | _, [], ctx => (.ok ctx.result, ctx.st, ctx.rng)
  | 0, _ :: _, ctx => (.ok ctx.result, ctx.st, ctx.rng)
  | fuel + 1, ch :: rest, ctx =>
      match scanStep (ch :: rest) ctx with
      | .error e => (.error e, ctx.st, ctx.rng)
      | .ok (rest', ctx') => scanLoop fuel rest' ctx'

/-- `RegexGenerator::generate` of regex_generator.rs (lines 26 to 175): one full
scan of the pattern starting from an empty result, an empty group stack, no open
group and group ordinal 1. -/
def generate (pattern : Str) (st : GenState) (rng : RNG) :
    (Except GenErr Str) × GenState × RNG :=
  scanLoop pattern.length pattern
    { st := st, rng := rng, result := [], gstack := [], cgroup := none, gindex := 1 }

/-- Repeated `generate` calls on one instance, collecting each call result and
threading the mutable state and the sampler stream. -/
def runCalls (pattern : Str) : Nat → GenState → RNG → List (Except GenErr Str) × GenState × RNG
  | 0, st, rng => ([], st, rng)
  | n + 1, st, rng =>
      (((generate pattern st rng).1 ::
          (runCalls pattern n (generate pattern st rng).2.1 (generate pattern st rng).2.2).1),
        (runCalls pattern n (generate pattern st rng).2.1 (generate pattern st rng).2.2).2)

/-- The parsing part of `check_repeat_spec` in demo.rs (lines 174 to 179): only the
comma form exists; a colon-form spec such as `3:10` reaches `parse().unwrap()` as a
single part and panics. -/
def demo_crsParse (spec : Str) : Except GenErr (Option (Nat × Option Nat)) :=
  let parts := spec.splitOn ','
  if parts.length = 1 then
    match parseUsize (parts.getD 0 []) with
    | some n => .ok (some (n, none))
    | none => .error .parsePanic
  else if parts.length = 2 then
    match parseUsize (parts.getD 0 []), parseUsize (parts.getD 1 []) with
    | some a, some b => .ok (some (a, some b))
    | _, _ => .error .parsePanic
  else .ok none

/-- `check_repeat_spec` of demo.rs (lines 157 to 183). -/
def demo_check_repeat_spec (cs : Str) : Except GenErr (Option (Nat × Option Nat)) × Str :=
  match cs with
  | '{' :: rest => (demo_crsParse (collectSpec rest).1, (collectSpec rest).2)
  | _ => ((.ok none), cs)

/-- `handle_repeat` of demo.rs (lines 216 to 228): no numeric-width form. -/
def demo_handle_repeat (c : Char) (spec : Nat × Option Nat) (rng : RNG) :
    Except GenErr (Str × RNG) :=
  match drawCount spec.1 spec.2 rng with
  | .error e => .error e
  | .ok (cnt, rng1) =>
      .ok ((List.replicate cnt (handle_escape c rng1).1).flatten, (handle_escape c rng1).2)

/-- `handle_bracket` of demo.rs (lines 263 to 282): no numeric-width form. -/
def demo_handle_bracket (char_class : List Char) (spec : Nat × Option Nat) (negate : Bool)
    (rng : RNG) : Except GenErr (Str × RNG) :=
  match drawCount spec.1 spec.2 rng with
  | .error e => .error e
  | .ok (cnt, rng1) =>
      let sample_set := if negate then fullSet.filter (fun c => c ∉ char_class) else char_class
      sampleChars sample_set cnt rng1

/-- One iteration of the scan loop of `generate` in demo.rs (lines 33 to 151). It
differs from the regex_generator.rs iteration only in the counter directive (no
`\x7b:total\x7d` suffix is scanned; `demo_increment_string` always pads to the
digit run length) and in the quantifier handling (no colon form). All other code is
identical between the two files; the shared helper definitions above are reused. -/
def demo_scanStep (cs : Str) (ctx : ScanCtx) : Except GenErr (Str × ScanCtx) :=
  match cs with
  | [] => .ok ([], ctx)
  | ch :: rest =>
    if ch = '\\' then
      match rest with
      | [] => .ok ([], ctx)
      | next_ch :: rest2 =>
        if next_ch = 'i' then
          let st1 := { ctx.st with direction := (scanSign rest2).1 }
          let rest3 := (scanSign rest2).2
          match st1.increment_value with
          | some v =>
              let nv := demo_increment_string st1.direction v
              .ok (rest3, { ctx with st := { st1 with increment_value := some nv },
                                     result := ctx.result ++ nv })
          | none => .ok (rest3, { ctx with st := st1, result := ctx.result ++ "0".data })
        else if next_ch = 'a' then
          let asign := (scanArraySign rest2).1
          let rest3 := (scanArraySign rest2).2
          match ctx.st.array_values with
          | some arr =>
              if asign = 1 then
                if arr.length = 0 then .error .arithPanic
                else .ok (rest3,
                  { ctx with
                      st := { ctx.st with array_index := ctx.st.array_index + 1 },
                      result := ctx.result ++ arr.getD (ctx.st.array_index % arr.length) [] })
              else if asign = -1 then
                if arr.length = 0 then .error .arithPanic
                else .ok (rest3,
                  { ctx with
                      st := { ctx.st with array_index := ctx.st.array_index + 1 },
                      result := ctx.result ++ arr.getD (arr.length - 1 - ctx.st.array_index % arr.length) [] })
              else
                match genRange 0 arr.length ctx.rng with
                | .error e => .error e
                | .ok (i, rng') =>
                    .ok (rest3, { ctx with rng := rng', result := ctx.result ++ arr.getD i [] })
          | none => .ok (rest3, { ctx with result := ctx.result ++ [] })
        else if '1' ≤ next_ch ∧ next_ch ≤ '9' then
          match mapLookup ctx.st.groups (next_ch.toNat - 48) with
          | some content => .ok (rest2, { ctx with result := ctx.result ++ content })
          | none => .ok (rest2, ctx)
        else
          match (demo_check_repeat_spec rest2).1 with
          | .error e => .error e
          | .ok (some spec) =>
              match demo_handle_repeat next_ch spec ctx.rng with
              | .error e => .error e
              | .ok (s, rng') =>
                  .ok ((demo_check_repeat_spec rest2).2,
                    { ctx with rng := rng', result := ctx.result ++ s })
          | .ok none =>
              .ok ((demo_check_repeat_spec rest2).2,
                { ctx with rng := (handle_escape next_ch ctx.rng).2,
                           result := ctx.result ++ (handle_escape next_ch ctx.rng).1 })
    else if ch = '[' then
      match (demo_check_repeat_spec (extract_char_class rest).2.2).1 with
      | .error e => .error e
      | .ok (some spec) =>
          match demo_handle_bracket (extract_char_class rest).1 spec (extract_char_class rest).2.1 ctx.rng with
          | .error e => .error e
          | .ok (s, rng') =>
              .ok ((demo_check_repeat_spec (extract_char_class rest).2.2).2,
                { ctx with rng := rng', result := ctx.result ++ s })
      | .ok none =>
          match demo_handle_bracket (extract_char_class rest).1 (1, none) (extract_char_class rest).2.1 ctx.rng with
          | .error e => .error e
          | .ok (s, rng') =>
              .ok ((demo_check_repeat_spec (extract_char_class rest).2.2).2,
                { ctx with rng := rng', result := ctx.result ++ s })
    else if ch = '(' then
      .ok ((if rest.head? = some '?' then rest.drop 1 else rest),
        { ctx with gstack := ctx.gstack ++ [[]], cgroup := some ctx.gindex,
                   gindex := ctx.gindex + 1 })
    else if ch = ')' then
      match ctx.cgroup with
      | some g =>
          match popBack ctx.gstack with
          | none => .ok (rest, ctx)
          | some (content, stack') =>
              let content' := if '|' ∈ content then content.takeWhile (· ≠ '|') else content
              .ok (rest,
                { ctx with
                    st := { ctx.st with groups := mapInsert ctx.st.groups g content' },
                    result := ctx.result ++ content',
                    gstack := stack',
                    cgroup := none })
      | none => .ok (rest, ctx)
    else if ch = '|' then
      match ctx.gstack with
      | [] => .ok (rest, { ctx with result := ctx.result ++ ['|'] })
      | _ => .ok (rest, { ctx with gstack := pushLast ctx.gstack '|' })
    else
      match ctx.cgroup with
      | some _ =>
          match ctx.gstack with
          | [] => .ok (rest, ctx)
          | _ => .ok (rest, { ctx with gstack := pushLast ctx.gstack ch })
      | none => .ok (rest, { ctx with result := ctx.result ++ [ch] })

/-- The scan loop of `generate` in demo.rs, iterating `demo_scanStep`; fuel as in
`scanLoop`. -/
def demo_scanLoop : Nat → Str → ScanCtx → (Except GenErr Str) × GenState × RNG
  | _, [], ctx => (.ok ctx.result, ctx.st, ctx.rng)
  | 0, _ :: _, ctx => (.ok ctx.result, ctx.st, ctx.rng)
  | fuel + 1, ch :: rest, ctx =>
      match demo_scanStep (ch :: rest) ctx with
      | .error e => (.error e, ctx.st, ctx.rng)
      | .ok (rest', ctx') => demo_scanLoop fuel rest' ctx'

/-- `RegexGenerator::generate` of demo.rs. -/
def demo_generate (pattern : Str) (st : GenState) (rng : RNG) :
    (Except GenErr Str) × GenState × RNG :=
  demo_scanLoop pattern.length pattern
    { st := st, rng := rng, result := [], gstack := [], cgroup := none, gindex := 1 }

/-! Lemmas about the scan loop: each successful iteration consumes at least one
character and can only add or overwrite capture-table entries, never remove them;
hence the fuel passed by `generate` is sufficient and irrelevant. -/

/-- Case analysis of a successful `scanStep`: the remaining input shrinks by at
least the consumed lead character, and the capture table is either untouched or
extended by one `insert`. -/
theorem scanStep_cases {ch : Char} {rest rest' : Str} {ctx ctx' : ScanCtx}
    (h : scanStep (ch :: rest) ctx = .ok (rest', ctx')) :
    rest'.length ≤ rest.length ∧
      (ctx'.st.groups = ctx.st.groups ∨
        ∃ g c, ctx'.st.groups = mapInsert ctx.st.groups g c) := by
  obtain ⟨⟨gr, inc, dir, arr, ai⟩, rng, res, gst, cg, gi⟩ := ctx
  unfold scanStep at h
  dsimp only at h
  by_cases h1 : ch = '\\'
  · rw [if_pos h1] at h
    cases rest with
    | nil =>
        simp only [Except.ok.injEq, Prod.mk.injEq] at h
        obtain ⟨h2, h3⟩ := h
        subst h2; subst h3
        simp
    | cons next_ch rest2 =>
        dsimp only at h
        by_cases h2 : next_ch = 'i'
        · rw [if_pos h2] at h
          cases inc with
          | some v =>
              simp only [Except.ok.injEq, Prod.mk.injEq] at h
              obtain ⟨h3, h4⟩ := h
              subst h3; subst h4
              refine ⟨?_, Or.inl rfl⟩
              calc ((scanISpec (scanSign rest2).2).2).length
                  ≤ (scanSign rest2).2.length := scanISpec_len _
                _ ≤ rest2.length := scanSign_len _
                _ ≤ rest2.length + 1 := Nat.le_succ _
          | none =>
              simp only [Except.ok.injEq, Prod.mk.injEq] at h
              obtain ⟨h3, h4⟩ := h
              subst h3; subst h4
              refine ⟨?_, Or.inl rfl⟩
              calc ((scanISpec (scanSign rest2).2).2).length
                  ≤ (scanSign rest2).2.length := scanISpec_len _
                _ ≤ rest2.length := scanSign_len _
                _ ≤ rest2.length + 1 := Nat.le_succ _
        · rw [if_neg h2] at h
          by_cases h3 : next_ch = 'a'
          · rw [if_pos h3] at h
            cases arr with
            | some a =>
                dsimp only at h
                by_cases h4 : (scanArraySign rest2).1 = 1
                · rw [if_pos h4] at h
                  by_cases h5 : a.length = 0
                  · rw [if_pos h5] at h
                    exact absurd h (by simp)
                  · rw [if_neg h5] at h
                    simp only [Except.ok.injEq, Prod.mk.injEq] at h
                    obtain ⟨h6, h7⟩ := h
                    subst h6; subst h7
                    exact ⟨Nat.le_succ_of_le (scanArraySign_len _), Or.inl rfl⟩
                · rw [if_neg h4] at h
                  by_cases h6 : (scanArraySign rest2).1 = -1
                  · rw [if_pos h6] at h
                    by_cases h5 : a.length = 0
                    · rw [if_pos h5] at h
                      exact absurd h (by simp)
                    · rw [if_neg h5] at h
                      simp only [Except.ok.injEq, Prod.mk.injEq] at h
                      obtain ⟨h7, h8⟩ := h
                      subst h7; subst h8
                      exact ⟨Nat.le_succ_of_le (scanArraySign_len _), Or.inl rfl⟩
                  · rw [if_neg h6] at h
                    cases hg : genRange 0 a.length rng with
                    | error e =>
                        rw [hg] at h
                        exact absurd h (by simp)
                    | ok p =>
                        obtain ⟨i, rng2⟩ := p
                        rw [hg] at h
                        dsimp only at h
                        simp only [Except.ok.injEq, Prod.mk.injEq] at h
                        obtain ⟨h7, h8⟩ := h
                        subst h7; subst h8
                        exact ⟨Nat.le_succ_of_le (scanArraySign_len _), Or.inl rfl⟩
            | none =>
                dsimp only at h
                simp only [Except.ok.injEq, Prod.mk.injEq] at h
                obtain ⟨h6, h7⟩ := h
                subst h6; subst h7
                exact ⟨Nat.le_succ_of_le (scanArraySign_len _), Or.inl rfl⟩
          · rw [if_neg h3] at h
            by_cases h4 : ('1' ≤ next_ch ∧ next_ch ≤ '9')
            · rw [if_pos h4] at h
              cases hm : mapLookup gr (next_ch.toNat - 48) with
              | some content =>
                  rw [hm] at h
                  dsimp only at h
                  simp only [Except.ok.injEq, Prod.mk.injEq] at h
                  obtain ⟨h5, h6⟩ := h
                  subst h5; subst h6
                  exact ⟨Nat.le_succ _, Or.inl rfl⟩
              | none =>
                  rw [hm] at h
                  dsimp only at h
                  simp only [Except.ok.injEq, Prod.mk.injEq] at h
                  obtain ⟨h5, h6⟩ := h
                  subst h5; subst h6
                  exact ⟨Nat.le_succ _, Or.inl rfl⟩
            · rw [if_neg h4] at h
              cases hc : (check_repeat_spec rest2).1 with
              | error e =>
                  rw [hc] at h
                  exact absurd h (by simp)
              | ok o =>
                  cases o with
                  | some spec =>
                      rw [hc] at h
                      dsimp only at h
                      cases hr : handle_repeat next_ch spec rng with
                      | error e =>
                          rw [hr] at h
                          exact absurd h (by simp)
                      | ok p =>
                          obtain ⟨s, rng2⟩ := p
                          rw [hr] at h
                          dsimp only at h
                          simp only [Except.ok.injEq, Prod.mk.injEq] at h
                          obtain ⟨h5, h6⟩ := h
                          subst h5; subst h6
                          exact ⟨Nat.le_succ_of_le (check_repeat_spec_len _), Or.inl rfl⟩
                  | none =>
                      rw [hc] at h
                      dsimp only at h
                      simp only [Except.ok.injEq, Prod.mk.injEq] at h
                      obtain ⟨h5, h6⟩ := h
                      subst h5; subst h6
                      exact ⟨Nat.le_succ_of_le (check_repeat_spec_len _), Or.inl rfl⟩
  · rw [if_neg h1] at h
    by_cases h2 : ch = '['
    · rw [if_pos h2] at h
      cases hc : (check_repeat_spec (extract_char_class rest).2.2).1 with
      | error e =>
          rw [hc] at h
          exact absurd h (by simp)
      | ok o =>
          have hlen : ((check_repeat_spec (extract_char_class rest).2.2).2).length ≤ rest.length :=
            le_trans (check_repeat_spec_len _) (extract_char_class_len _)
          cases o with
          | some spec =>
              rw [hc] at h
              dsimp only at h
              cases hb : handle_bracket (extract_char_class rest).1 spec (extract_char_class rest).2.1 rng with
              | error e =>
                  rw [hb] at h
                  exact absurd h (by simp)
              | ok p =>
                  obtain ⟨s, rng2⟩ := p
                  rw [hb] at h
                  dsimp only at h
                  simp only [Except.ok.injEq, Prod.mk.injEq] at h
                  obtain ⟨h5, h6⟩ := h
                  subst h5; subst h6
                  exact ⟨hlen, Or.inl rfl⟩
          | none =>
              rw [hc] at h
              dsimp only at h
              cases hb : handle_bracket (extract_char_class rest).1 (1, none, none) (extract_char_class rest).2.1 rng with
              | error e =>
                  rw [hb] at h
                  exact absurd h (by simp)
              | ok p =>
                  obtain ⟨s, rng2⟩ := p
                  rw [hb] at h
                  dsimp only at h
                  simp only [Except.ok.injEq, Prod.mk.injEq] at h
                  obtain ⟨h5, h6⟩ := h
                  subst h5; subst h6
                  exact ⟨hlen, Or.inl rfl⟩
    · rw [if_neg h2] at h
      by_cases h3 : ch = '('
      · rw [if_pos h3] at h
        simp only [Except.ok.injEq, Prod.mk.injEq] at h
        obtain ⟨h5, h6⟩ := h
        subst h5; subst h6
        refine ⟨?_, Or.inl rfl⟩
        split
        · simp
        · exact Nat.le_refl _
      · rw [if_neg h3] at h
        by_cases h4 : ch = ')'
        · rw [if_pos h4] at h
          cases cg with
          | some g =>
              dsimp only at h
              cases hp : popBack gst with
              | none =>
                  rw [hp] at h
                  dsimp only at h
                  simp only [Except.ok.injEq, Prod.mk.injEq] at h
                  obtain ⟨h5, h6⟩ := h
                  subst h5; subst h6
                  exact ⟨Nat.le_refl _, Or.inl rfl⟩
              | some p =>
                  obtain ⟨content, stack2⟩ := p
                  rw [hp] at h
                  dsimp only at h
                  simp only [Except.ok.injEq, Prod.mk.injEq] at h
                  obtain ⟨h5, h6⟩ := h
                  subst h5; subst h6
                  exact ⟨Nat.le_refl _, Or.inr ⟨g, _, rfl⟩⟩
          | none =>
              dsimp only at h
              simp only [Except.ok.injEq, Prod.mk.injEq] at h
              obtain ⟨h5, h6⟩ := h
              subst h5; subst h6
              exact ⟨Nat.le_refl _, Or.inl rfl⟩
        · rw [if_neg h4] at h
          by_cases h5 : ch = '|'
          · rw [if_pos h5] at h
            cases gst with
            | nil =>
                dsimp only at h
                simp only [Except.ok.injEq, Prod.mk.injEq] at h
                obtain ⟨h6, h7⟩ := h
                subst h6; subst h7
                exact ⟨Nat.le_refl _, Or.inl rfl⟩
            | cons s tail =>
                dsimp only at h
                simp only [Except.ok.injEq, Prod.mk.injEq] at h
                obtain ⟨h6, h7⟩ := h
                subst h6; subst h7
                exact ⟨Nat.le_refl _, Or.inl rfl⟩
          · rw [if_neg h5] at h
            cases cg with
            | some g =>
                dsimp only at h
                cases gst with
                | nil =>
                    dsimp only at h
                    simp only [Except.ok.injEq, Prod.mk.injEq] at h
                    obtain ⟨h6, h7⟩ := h
                    subst h6; subst h7
                    exact ⟨Nat.le_refl _, Or.inl rfl⟩
                | cons s tail =>
                    dsimp only at h
                    simp only [Except.ok.injEq, Prod.mk.injEq] at h
                    obtain ⟨h6, h7⟩ := h
                    subst h6; subst h7
                    exact ⟨Nat.le_refl _, Or.inl rfl⟩
            | none =>
                dsimp only at h
                simp only [Except.ok.injEq, Prod.mk.injEq] at h
                obtain ⟨h6, h7⟩ := h
                subst h6; subst h7
                exact ⟨Nat.le_refl _, Or.inl rfl⟩

theorem mapLookup_mapInsert (m : List (Nat × Str)) (g k : Nat) (c : Str) :
    mapLookup (mapInsert m g c) k = if g = k then some c else mapLookup m k := by
  induction m with
  | nil =>
      unfold mapInsert mapLookup
      split <;> simp_all [mapLookup]
  | cons p rest ih =>
      obtain ⟨k', v'⟩ := p
      by_cases h1 : k' = g
      · subst h1
        simp only [mapInsert, if_pos rfl, mapLookup]
        by_cases h2 : k' = k <;> simp [h2]
      · simp only [mapInsert, if_neg h1, mapLookup, ih]
        by_cases h2 : k' = k <;> by_cases h3 : g = k <;> simp_all

theorem scanLoop_fuel_irrelevant : ∀ (f : Nat) (cs : Str) (ctx : ScanCtx),
    cs.length ≤ f → scanLoop f cs ctx = scanLoop cs.length cs ctx := by
  intro f
  induction f using Nat.strong_induction_on with
  | _ f ih =>
      intro cs ctx hf
      match f, cs with
      | f, [] => cases f <;> rfl
      | 0, ch :: rest => simp at hf
      | f + 1, ch :: rest =>
          have hlc : (ch :: rest).length = rest.length + 1 := rfl
          rw [scanLoop, hlc, scanLoop]
          cases hs : scanStep (ch :: rest) ctx with
          | error e => rfl
          | ok p =>
              obtain ⟨rest', ctx'⟩ := p
              dsimp only
              have hlen := (scanStep_cases hs).1
              simp only [List.length_cons] at hf
              rw [ih f (by omega) rest' ctx' (by omega)]
              rw [ih rest.length (by omega) rest' ctx' (by omega)]

theorem scanLoop_groups_mono : ∀ (fuel : Nat) (cs : Str) (ctx : ScanCtx) (k : Nat),
    (mapLookup ctx.st.groups k).isSome = true →
    (mapLookup (scanLoop fuel cs ctx).2.1.groups k).isSome = true := by
  intro fuel
  induction fuel with
  | zero =>
      intro cs ctx k hk
      cases cs <;> simpa [scanLoop] using hk
  | succ fuel ih =>
      intro cs ctx k hk
      cases cs with
      | nil => simpa [scanLoop] using hk
      | cons ch rest =>
          rw [scanLoop]
          cases hs : scanStep (ch :: rest) ctx with
          | error e => simpa using hk
          | ok p =>
              obtain ⟨rest', ctx'⟩ := p
              dsimp only
              apply ih
              rcases (scanStep_cases hs).2 with hsame | ⟨g, c, hins⟩
              · rw [hsame]; exact hk
              · rw [hins, mapLookup_mapInsert]
                split
                · simp
                · exact hk


/-! Arithmetic and rendering lemmas about the decimal formatting model. -/

theorem natToDigits_ne_nil (n : Nat) : natToDigits n ≠ [] := by
  rw [natToDigits.eq_def]
  split <;> simp

theorem charOfNat_digit {d : Nat} (h : d < 10) : (Char.ofNat (48 + d)).isDigit = true := by
  interval_cases d <;> decide

theorem digitVal_charOfNat {d : Nat} (h : d < 10) : digitVal (Char.ofNat (48 + d)) = d := by
  interval_cases d <;> decide

theorem natToDigits_all_digit (n : Nat) : (natToDigits n).all Char.isDigit = true := by
  induction n using natToDigits.induct with
  | case1 n h =>
      rw [natToDigits.eq_def]
      simp [if_pos h, charOfNat_digit h]
  | case2 n h ih =>
      rw [natToDigits.eq_def]
      rw [if_neg h]
      simp [List.all_append, ih]
      exact charOfNat_digit (Nat.mod_lt _ (by norm_num))

theorem digitsToNat_append (l : Str) (c : Char) :
    digitsToNat (l ++ [c]) = 10 * digitsToNat l + digitVal c := by
  simp [digitsToNat, List.foldl_append]
  omega

theorem digitsToNat_natToDigits (n : Nat) : digitsToNat (natToDigits n) = n := by
  induction n using natToDigits.induct with
  | case1 n h =>
      rw [natToDigits.eq_def]
      simp [if_pos h, digitsToNat, digitVal_charOfNat h]
  | case2 n h ih =>
      rw [natToDigits.eq_def]
      rw [if_neg h]
      rw [digitsToNat_append, ih, digitVal_charOfNat (Nat.mod_lt _ (by norm_num))]
      omega

theorem digitsToNat_cons_zero (l : Str) : digitsToNat ('0' :: l) = digitsToNat l := by
  have h : (fun (a : Nat) (c : Char) => a * 10 + digitVal c) 0 '0' = 0 := by decide
  simp only [digitsToNat, List.foldl_cons, h]

theorem digitsToNat_replicate_zero (k : Nat) (l : Str) :
    digitsToNat (List.replicate k '0' ++ l) = digitsToNat l := by
  induction k with
  | zero => simp
  | succ k ih =>
      rw [List.replicate_succ, List.cons_append, digitsToNat_cons_zero, ih]

theorem natToDigits_length_le : ∀ (k n : Nat), 1 ≤ k → n < 10 ^ k →
    (natToDigits n).length ≤ k := by
  intro k
  induction k with
  | zero => omega
  | succ k ih =>
      intro n _ hn
      rw [natToDigits.eq_def]
      by_cases h : n < 10
      · simp [if_pos h]
      · rw [if_neg h]
        simp only [List.length_append, List.length_cons, List.length_nil]
        have hk : 1 ≤ k := by
          by_contra hk0
          have : k = 0 := by omega
          subst this
          simp at hn
          omega
        have hdiv : n / 10 < 10 ^ k := by
          rw [Nat.div_lt_iff_lt_mul (by norm_num)]
          calc n < 10 ^ (k + 1) := hn
          _ = 10 ^ k * 10 := by rw [pow_succ]
        have := ih (n / 10) hk hdiv
        omega

theorem parseI32digits_natToDigits {n : Nat} (h : n ≤ 2147483647) :
    parseI32digits (natToDigits n) = some (n : Int) := by
  unfold parseI32digits
  rw [if_pos ⟨natToDigits_ne_nil n, natToDigits_all_digit n,
    by rw [digitsToNat_natToDigits]; exact h⟩]
  rw [digitsToNat_natToDigits]

theorem replicate_zero_all_digit (k : Nat) :
    (List.replicate k '0').all Char.isDigit = true := by
  simp only [List.all_eq_true]
  intro c hc
  rw [List.eq_of_mem_replicate hc]
  decide

theorem parseI32digits_pad {n : Nat} (k : Nat) (h : n ≤ 2147483647) :
    parseI32digits (List.replicate k '0' ++ natToDigits n) = some (n : Int) := by
  unfold parseI32digits
  rw [if_pos ⟨by simp [natToDigits_ne_nil n],
    by simp [List.all_append, replicate_zero_all_digit, natToDigits_all_digit],
    by rw [digitsToNat_replicate_zero, digitsToNat_natToDigits]; exact h⟩]
  rw [digitsToNat_replicate_zero, digitsToNat_natToDigits]

theorem takeWhile_isDigit_self {l : Str} (h : l.all Char.isDigit = true) :
    l.takeWhile Char.isDigit = l := by
  induction l with
  | nil => simp
  | cons c t ih =>
      simp only [List.all_cons, Bool.and_eq_true] at h
      simp [List.takeWhile_cons, h.1, ih h.2]

theorem splitValue_all_digits {ds : Str} (h1 : ds ≠ []) (h2 : ds.all Char.isDigit = true) :
    splitValue ds = ([], ds) := by
  cases ds with
  | nil => simp at h1
  | cons c rest =>
      simp only [List.all_cons, Bool.and_eq_true] at h2
      simp only [splitValue, if_pos h2.1]
      rw [takeWhile_isDigit_self h2.2]

theorem intToStr_ofNat (m : Nat) : intToStr (m : Int) = natToDigits m := by
  unfold intToStr
  rw [if_neg (by omega)]
  simp

theorem padInt_ofNat (m w : Nat) : padInt (m : Int) w = padNat m w := by
  unfold padInt
  rw [if_neg (by omega)]
  simp

/-! Claim theorems. -/

unseal natToDigits in
/-- Claim C1: the spec requires malformed quantifier specs (non-numeric or missing
bounds, or `n > m`) to surface as a recoverable caller error and never to panic.
The code violates this: `generate` returns a plain `String` with no error channel,
`check_repeat_spec` calls `parse().unwrap()` which panics on a non-numeric bound
(pattern `\d\x7bx\x7d`), and `gen_range(min..=max)` panics when `n > m`
(pattern `[a]\x7b2,1\x7d`). This theorem evaluates the embedded code at both
failing inputs, exhibiting the panics. -/
theorem C1_malformed_quantifier_panic :
    (generate "\\d\x7bx\x7d".data (GenState.new none none) []).1 = .error .parsePanic
    ∧ (generate "[a]\x7b2,1\x7d".data (GenState.new none none) []).1 = .error .emptyRangePanic :=
  ⟨rfl, rfl⟩

unseal natToDigits in
/-- Claim C8: an unterminated group or character class is treated as consuming to
the end of the pattern and the call returns normally — the claim explicitly includes
an empty unterminated class body. The code violates the empty-body case: pattern `[`
produces an empty sample set and `gen_range(0..0)` panics. The non-empty
unterminated class `[ab` and the unterminated group `(ab` do return normally. -/
theorem C8_unterminated_class_panic :
    (generate "[".data (GenState.new none none) []).1 = .error .emptyRangePanic
    ∧ (generate "(ab".data (GenState.new none none) []).1 = .ok []
    ∧ (generate "[ab".data (GenState.new none none) [0]).1 = .ok "a".data :=
  ⟨rfl, rfl, rfl⟩

unseal natToDigits in
/-- Claim C2, counterexample: with counter value `007` (digit run of length 3) and
pattern `\i`, the claim predicts the incremented value rendered as `008`
(zero-padded to the digit run length); the code renders `8` with no padding. -/
theorem C2_counterexample :
    (generate "\\i".data (GenState.new (some "007".data) none) []).1 = .ok "8".data
    ∧ "8".data ≠ "008".data :=
  ⟨rfl, by decide⟩

unseal natToDigits in
/-- Claim C3, counterexample: in pattern `\i-\i` with counter value `10`, the
sign-less second directive should (per the claim) keep the descending direction set
by the first and produce `98`; the code resets the direction to ascending on every
sign-less `\i` and produces `910`, ending with direction `1`. -/
theorem C3_counterexample :
    generate "\\i-\\i".data (GenState.new (some "10".data) none) [] =
      (.ok "910".data, (⟨[], some "10".data, 1, none, 0⟩ : GenState), [])
    ∧ "910".data ≠ "98".data :=
  ⟨rfl, by decide⟩

unseal natToDigits in
/-- Claim C4, counterexample: in pattern `\i\x7b:5\x7d\i` with counter value `8`,
the claim predicts the width 5 set by the first directive to also apply to the
second, giving `00009` then `00010`; the code applies the width only to the
directive it suffixes, giving `00009` then the unpadded `10`. -/
theorem C4_counterexample :
    generate "\\i\x7b:5\x7d\\i".data (GenState.new (some "8".data) none) [] =
      (.ok "0000910".data, (⟨[], some "10".data, 1, none, 0⟩ : GenState), [])
    ∧ "0000910".data ≠ "0000900010".data :=
  ⟨rfl, by decide⟩

unseal natToDigits in
/-- Claim C9, counterexample: pattern `\i\d\x7bx\x7d` with counter value `1`. The
call fails on the malformed quantifier, but the counter mutation performed by the
`\i` scanned before the failure persists: the stored value after the failing call
is `2`, not the original `1`. -/
theorem C9_counterexample :
    (generate "\\i\\d\x7bx\x7d".data (GenState.new (some "1".data) none) []).1 = .error .parsePanic
    ∧ (generate "\\i\\d\x7bx\x7d".data (GenState.new (some "1".data) none) []).2.1.increment_value
        = some "2".data
    ∧ some "2".data ≠ some "1".data :=
  ⟨rfl, rfl, by decide⟩

unseal natToDigits in
/-- Claim C10, counterexample: the two engine copies disagree on counter value `007`
with pattern `\i` and identical (here: unused) sampler outcomes: demo.rs zero-pads
to the digit run length and yields `008`, regex_generator.rs yields `8`. -/
theorem C10_counterexample :
    (demo_generate "\\i".data (GenState.new (some "007".data) none) []).1 = .ok "008".data
    ∧ (generate "\\i".data (GenState.new (some "007".data) none) []).1 = .ok "8".data
    ∧ ("008".data : Str) ≠ "8".data :=
  ⟨rfl, rfl, by decide⟩

/-- Claim C5: capture-table entries are never cleared between `generate`
invocations. First conjunct: for every pattern, state and sampler stream, any group
entry present at the start of a call is still present (the scan only inserts).
Second conjunct: the documented cross-call leak observed concretely — with pattern
`\1(ab)` the backreference is empty on the first call but on the second call emits
the text captured by the previous call, whose pattern had not yet redefined group 1
at the point of use. -/
theorem C5_capture_table_persistence :
    (∀ (pattern : Str) (st : GenState) (rng : RNG) (k : Nat),
        (mapLookup st.groups k).isSome = true →
        (mapLookup (generate pattern st rng).2.1.groups k).isSome = true)
    ∧ (runCalls "\\1(ab)".data 2 (GenState.new none none) []).1
        = [.ok "ab".data, .ok "abab".data] := by
  constructor
  · intro pattern st rng k h
    exact scanLoop_groups_mono _ _ _ k h
  · rfl

/-- Witness for C5 at a concrete input: a pre-existing entry for group 1 survives a
call on pattern `z`. -/
theorem C5_capture_table_persistence_witness :
    (mapLookup (generate "z".data
        (⟨[(1, "xy".data)], none, 1, none, 0⟩ : GenState) []).2.1.groups 1).isSome = true :=
  C5_capture_table_persistence.1 "z".data ⟨[(1, "xy".data)], none, 1, none, 0⟩ [] 1 (by decide)

/-- Claim C3, amended: every `\i` directive assigns the counter direction anew — to
its sign when present, else to ascending — so a sign-less `\i` resets a previously
set descending direction rather than keeping it. -/
theorem C3_direction_reset (st : GenState) (rng : RNG) :
    ((generate "\\i".data st rng).2.1.direction = 1)
    ∧ ((generate "\\i+".data st rng).2.1.direction = 1)
    ∧ ((generate "\\i-".data st rng).2.1.direction = -1) := by
  obtain ⟨gr, inc, dir, arr, ai⟩ := st
  cases inc <;>
    simp [generate, scanLoop, scanStep, scanSign, scanISpec]

/-- Claim C2, amended: when no explicit total width is in effect, `\i` re-renders
the incremented integer with the default format — minimal decimal digits, no zero
padding (`intToStr`) — and re-concatenates the non-digit prefix in front; the digit
run length plays no role in the rendering. The bound `n + 1 ≤ 2147483647` keeps the
increment inside `i32`, where the model's integer addition and the Rust addition
agree (at the boundary itself the source overflows instead). -/
theorem C2_no_pad_render (st : GenState) (rng : RNG) (v p ds : Str) (n : Int)
    (h1 : st.increment_value = some v) (h2 : splitValue v = (p, ds))
    (h3 : parseI32digits ds = some n) (_hbound : n + 1 ≤ 2147483647) :
    generate "\\i".data st rng =
      (.ok (p ++ intToStr (n + 1)),
        { st with direction := 1, increment_value := some (p ++ intToStr (n + 1)) }, rng) := by
  obtain ⟨gr, inc, dir, arr, ai⟩ := st
  dsimp only at h1
  subst h1
  simp [generate, scanLoop, scanStep, scanSign, scanISpec, increment_string, h2, h3]

/-- Witness for C2 at counter value `a007`: the update renders `a8`. -/
theorem C2_no_pad_render_witness :
    generate "\\i".data (GenState.new (some "a007".data) none) [] =
      (.ok ("a".data ++ intToStr (7 + 1)),
        { GenState.new (some "a007".data) none with
            direction := 1,
            increment_value := some ("a".data ++ intToStr (7 + 1)) }, []) :=
  C2_no_pad_render _ _ "a007".data "a".data "007".data 7 rfl (by decide) (by decide) (by decide)

/-- Claim C9, amended: a failing call performs no rollback. On pattern
`\i\d\x7bx\x7d` the call panics at the malformed quantifier, and the counter
mutation performed by the `\i` scanned before the failure point persists in the
state the call leaves behind. The bound `n + 1 ≤ 2147483647` keeps the `\i`
increment inside `i32`, where the model's integer addition and the Rust addition
agree (at the boundary itself the source overflows instead). -/
theorem C9_error_keeps_mutations (st : GenState) (rng : RNG) (v p ds : Str) (n : Int)
    (h1 : st.increment_value = some v) (h2 : splitValue v = (p, ds))
    (h3 : parseI32digits ds = some n) (_hbound : n + 1 ≤ 2147483647) :
    (generate "\\i\\d\x7bx\x7d".data st rng).1 = .error .parsePanic
    ∧ (generate "\\i\\d\x7bx\x7d".data st rng).2.1 =
        { st with direction := 1, increment_value := some (p ++ intToStr (n + 1)) } := by
  obtain ⟨gr, inc, dir, arr, ai⟩ := st
  dsimp only at h1
  subst h1
  have hcrs : check_repeat_spec "\x7bx\x7d".data = (.error .parsePanic, []) := rfl
  constructor <;>
    simp [generate, scanLoop, scanStep, scanSign, scanISpec, increment_string, h2, h3, hcrs]

/-- Witness for C9 at counter value `1`: the failing call leaves counter value `2`. -/
theorem C9_error_keeps_mutations_witness :
    (generate "\\i\\d\x7bx\x7d".data (GenState.new (some "1".data) none) []).1 = .error .parsePanic
    ∧ (generate "\\i\\d\x7bx\x7d".data (GenState.new (some "1".data) none) []).2.1 =
        { GenState.new (some "1".data) none with
            direction := 1,
            increment_value := some ([] ++ intToStr (1 + 1)) } :=
  C9_error_keeps_mutations _ _ "1".data [] "1".data 1 rfl (by decide) (by decide) (by decide)

/-- Claim C4, amended: a `\x7b:total\x7d` suffix applies only to the directive it
follows; the width is not stored in the generator state, so a subsequent `\i`
without its own suffix renders unpadded. Concretely, on `\i\x7b:5\x7d\i` the first
token is padded to width 5 and the second is the minimal rendering. -/
theorem C4_width_local (st : GenState) (rng : RNG) (ds : Str) (n : Nat)
    (h1 : st.increment_value = some ds) (hne : ds ≠ [])
    (hall : ds.all Char.isDigit = true) (hval : digitsToNat ds = n)
    (hbound : n + 2 ≤ 2147483647) :
    generate "\\i\x7b:5\x7d\\i".data st rng =
      (.ok (padNat (n + 1) 5 ++ natToDigits (n + 2)),
        { st with direction := 1, increment_value := some (natToDigits (n + 2)) }, rng) := by
  obtain ⟨gr, inc, dir, arr, ai⟩ := st
  dsimp only at h1
  subst h1
  have hsplit1 := splitValue_all_digits hne hall
  have hparse1 : parseI32digits ds = some (n : Int) := by
    unfold parseI32digits
    rw [if_pos ⟨hne, hall, by omega⟩, hval]
  have hinc1 : increment_string 1 ds (some 5) = padNat (n + 1) 5 := by
    unfold increment_string
    rw [hsplit1]
    dsimp only
    rw [hparse1]
    dsimp only
    have hcast : (n : Int) + 1 = ((n + 1 : Nat) : Int) := by push_cast; ring
    rw [hcast, padInt_ofNat]
    exact List.nil_append _
  have hne1 : padNat (n + 1) 5 ≠ [] := by
    unfold padNat
    simp [natToDigits_ne_nil]
  have hall1 : (padNat (n + 1) 5).all Char.isDigit = true := by
    unfold padNat
    simp [List.all_append, replicate_zero_all_digit, natToDigits_all_digit]
  have hsplit2 := splitValue_all_digits hne1 hall1
  have hparse2 : parseI32digits (padNat (n + 1) 5) = some ((n + 1 : Nat) : Int) := by
    unfold padNat
    exact parseI32digits_pad _ (by omega)
  have hinc2 : increment_string 1 (padNat (n + 1) 5) none = natToDigits (n + 2) := by
    unfold increment_string
    rw [hsplit2]
    dsimp only
    rw [hparse2]
    dsimp only
    have hcast : ((n + 1 : Nat) : Int) + 1 = ((n + 2 : Nat) : Int) := by push_cast; ring
    rw [hcast, intToStr_ofNat]
    exact List.nil_append _
  have hcoll : collectISpec (':' :: '5' :: '\x7d' :: '\\' :: 'i' :: []) = (['5'], ['\\', 'i']) := rfl
  have hps : parseUsize ['5'] = some 5 := rfl
  simp [generate, scanLoop, scanStep, scanSign, scanISpec, hcoll, hps, hinc1, hinc2]

/-- Witness for C4 at counter value `8`: `00009` then `10`. -/
theorem C4_width_local_witness :
    generate "\\i\x7b:5\x7d\\i".data (GenState.new (some "8".data) none) [] =
      (.ok (padNat (8 + 1) 5 ++ natToDigits (8 + 2)),
        { GenState.new (some "8".data) none with
            direction := 1,
            increment_value := some (natToDigits (8 + 2)) }, []) :=
  C4_width_local _ _ "8".data 8 rfl (by decide) (by decide) (by decide) (by decide)

/-- Claim C7: pool-cursor semantics. Ordered access reads the element at
`cursor mod L` (ascending) or `L - 1 - cursor mod L` (descending) and advances the
shared cursor by one; an unsigned `\a` samples some pool element and leaves the
whole state — cursor included — untouched; and the ascending wrap test: 5 calls on
pool `[apple, banana, cherry]` yield `apple, banana, cherry, apple, banana`. -/
theorem C7_pool_cursor (st : GenState) (rng : RNG) (pool : List Str)
    (h1 : st.array_values = some pool) (h2 : pool ≠ []) :
    (generate "\\a+".data st rng =
       (.ok (pool.getD (st.array_index % pool.length) []),
        { st with array_index := st.array_index + 1 }, rng))
    ∧ (generate "\\a-".data st rng =
       (.ok (pool.getD (pool.length - 1 - st.array_index % pool.length) []),
        { st with array_index := st.array_index + 1 }, rng))
    ∧ ((generate "\\a".data st rng).2.1 = st
        ∧ ∃ i, i < pool.length ∧ (generate "\\a".data st rng).1 = .ok (pool.getD i []))
    ∧ (runCalls "\\a+".data 5
          (GenState.new none (some ["apple".data, "banana".data, "cherry".data])) []).1
        = [.ok "apple".data, .ok "banana".data, .ok "cherry".data, .ok "apple".data,
            .ok "banana".data] := by
  obtain ⟨gr, inc, dir, arr, ai⟩ := st
  dsimp only at h1
  subst h1
  have hpos : 0 < pool.length := List.length_pos.mpr h2
  have hlen : pool.length ≠ 0 := by omega
  refine ⟨?_, ?_, ⟨?_, ?_⟩, rfl⟩
  · simp [generate, scanLoop, scanStep, scanArraySign, hlen]
  · simp [generate, scanLoop, scanStep, scanArraySign, hlen]
  · simp [generate, scanLoop, scanStep, scanArraySign, genRange, hpos, nextR]
  · refine ⟨rng.headD 0 % pool.length, Nat.mod_lt _ hpos, ?_⟩
    simp [generate, scanLoop, scanStep, scanArraySign, genRange, hpos, nextR]

/-- Witness for C7: the first ascending access on the three-element pool. -/
theorem C7_pool_cursor_witness :
    generate "\\a+".data
        (GenState.new none (some ["apple".data, "banana".data, "cherry".data])) [] =
      (.ok (["apple".data, "banana".data, "cherry".data].getD (0 % 3) []),
       { GenState.new none (some ["apple".data, "banana".data, "cherry".data]) with
           array_index := 0 + 1 }, []) :=
  (C7_pool_cursor _ [] ["apple".data, "banana".data, "cherry".data] rfl (by decide)).1

theorem getD_replicate_of_lt {α : Type} (c d : α) {i k : Nat} (h : i < k) :
    (List.replicate k c).getD i d = c := by
  rw [List.getD_eq_getElem _ _ (by simpa using h)]
  simp

/-- For a value below 1000 padded to width at least 3, the output has exactly the
requested width and every position before the last three is a zero. -/
theorem padNat_spec {x w : Nat} (hx : x < 1000) (hw : 3 ≤ w) :
    (padNat x w).length = w ∧ (∀ i < w - 3, (padNat x w).getD i ' ' = '0') := by
  have hlen : (natToDigits x).length ≤ 3 := natToDigits_length_le 3 x (by omega) (by norm_num; omega)
  unfold padNat
  constructor
  · simp
    omega
  · intro i hi
    have hk : i < w - (natToDigits x).length := by omega
    rw [List.getD_append _ _ _ _ (by simpa using hk)]
    exact getD_replicate_of_lt _ _ hk

/-- Claim C6: the numeric-width quantifier `\x7bn:m\x7d` with `n ≥ 1`. First
conjunct: `handle_bracket` ignores the class contents and the negation flag
entirely, `handle_repeat` on an escape class emits the same token, and the emitted
token is a zero-padded rendering of an integer drawn from
`[10^(n-1), 10^n - 1]`. Second conjunct: for every state and sampler stream,
pattern `[0-9]\x7b3:10\x7d` emits exactly one token of length exactly 10 whose
character at 0-based index 6 is `0`. -/
theorem C6_numeric_width :
    (∀ (numLen totalLen : Nat) (c : Char) (cls cls' : List Char) (neg neg' : Bool) (rng : RNG),
        1 ≤ numLen →
        (handle_bracket cls (1, none, some (numLen, totalLen)) neg rng
            = handle_bracket cls' (1, none, some (numLen, totalLen)) neg' rng
          ∧ handle_repeat c (1, none, some (numLen, totalLen)) rng
            = handle_bracket cls (1, none, some (numLen, totalLen)) neg rng
          ∧ ∃ x, 10 ^ (numLen - 1) ≤ x ∧ x ≤ 10 ^ numLen - 1 ∧
              handle_bracket cls (1, none, some (numLen, totalLen)) neg rng
                = .ok (padNat x totalLen, rng.drop 1)))
    ∧ (∀ (st : GenState) (rng : RNG),
        (generate "[0-9]\x7b3:10\x7d".data st rng).1
            = .ok (padNat (100 + rng.headD 0 % 900) 10)
          ∧ (padNat (100 + rng.headD 0 % 900) 10).length = 10
          ∧ (padNat (100 + rng.headD 0 % 900) 10).getD 6 ' ' = '0') := by
  constructor
  · intro numLen totalLen c cls cls' neg neg' rng hn
    have hlo : 10 ^ (numLen - 1) < 10 ^ numLen :=
      Nat.pow_lt_pow_right (by norm_num) (by omega)
    refine ⟨rfl, rfl, 10 ^ (numLen - 1) + rng.headD 0 % (10 ^ numLen - 10 ^ (numLen - 1)),
      ?_, ?_, ?_⟩
    · omega
    · have := Nat.mod_lt (rng.headD 0) (y := 10 ^ numLen - 10 ^ (numLen - 1)) (by omega)
      omega
    · unfold handle_bracket drawCount emitNumericWidth genRange nextR
      dsimp only
      rw [if_neg (by omega), if_pos hlo]
  · intro st rng
    have hecc : extract_char_class ("0-9]\x7b3:10\x7d".data) =
        ("0123456789".data, false, "\x7b3:10\x7d".data) := rfl
    have hcrs : check_repeat_spec "\x7b3:10\x7d".data =
        (.ok (some (1, none, some (3, 10))), []) := rfl
    have hx : 100 + rng.headD 0 % 900 < 1000 := by
      have := Nat.mod_lt (rng.headD 0) (y := 900) (by norm_num)
      omega
    obtain ⟨hl, hp⟩ := padNat_spec hx (by norm_num : 3 ≤ 10)
    refine ⟨?_, hl, hp 6 (by norm_num)⟩
    simp [generate, scanLoop, scanStep, hecc, hcrs, handle_bracket, drawCount,
      emitNumericWidth, genRange, nextR]

/-- Witness for C6 with sampler outcome 555: class and negation irrelevant, and the
call on `[0-9]\x7b3:10\x7d` emits the padded numeral. -/
theorem C6_numeric_width_witness :
    (handle_bracket "abc".data (1, none, some (3, 10)) false []
        = handle_bracket [] (1, none, some (3, 10)) true [])
    ∧ (generate "[0-9]\x7b3:10\x7d".data (GenState.new none none) [555]).1
        = .ok (padNat (100 + ([555] : RNG).headD 0 % 900) 10) :=
  ⟨(C6_numeric_width.1 3 10 'd' "abc".data [] false true [] (by decide)).1,
   (C6_numeric_width.2 (GenState.new none none) [555]).1⟩

/-- Claim C10, amended: the two engine copies are not equivalent; they differ
exactly in the counter rendering and in the quantifier spec parsing. First
conjunct: demo.rs `increment_string` coincides with regex_generator.rs
`increment_string` invoked with an explicit total width equal to the digit run
length — so demo always pads and regex_generator (which passes a width only for a
`\x7b:total\x7d` suffix) does not. Second conjunct: on a colon-form spec `3:10`,
demo.rs `check_repeat_spec` panics while regex_generator.rs parses a numeric-width
spec. -/
theorem C10_engine_divergence :
    (∀ (d : Int) (v : Str),
        demo_increment_string d v = increment_string d v (some (splitValue v).2.length))
    ∧ (∀ rest : Str,
        demo_check_repeat_spec ('\x7b' :: ('3' :: ':' :: '1' :: '0' :: '\x7d' :: rest))
            = ((.error .parsePanic), rest)
        ∧ check_repeat_spec ('\x7b' :: ('3' :: ':' :: '1' :: '0' :: '\x7d' :: rest))
            = (.ok (some (1, none, some (3, 10))), rest)) := by
  constructor
  · intro d v
    unfold demo_increment_string increment_string
    cases hp : parseI32digits (splitValue v).2 <;> simp [hp]
  · intro rest
    have hcs : collectSpec ('3' :: ':' :: '1' :: '0' :: '\x7d' :: rest) =
        (['3', ':', '1', '0'], rest) := by
      simp [collectSpec]
    have hdemo : demo_crsParse ['3', ':', '1', '0'] = .error .parsePanic := rfl
    have hrg : crsParse ['3', ':', '1', '0'] = .ok (some (1, none, some (3, 10))) := rfl
    constructor
    · show (demo_crsParse (collectSpec ('3' :: ':' :: '1' :: '0' :: '\x7d' :: rest)).1,
          (collectSpec ('3' :: ':' :: '1' :: '0' :: '\x7d' :: rest)).2)
            = ((.error .parsePanic), rest)
      rw [hcs, hdemo]
    · show (crsParse (collectSpec ('3' :: ':' :: '1' :: '0' :: '\x7d' :: rest)).1,
          (collectSpec ('3' :: ':' :: '1' :: '0' :: '\x7d' :: rest)).2)
            = (.ok (some (1, none, some (3, 10))), rest)
      rw [hcs, hrg]

end RSG
